import Mathlib

/-!
# Verification of the paganini-lang front end

Shallow embedding of the lexer (`src/parsing/lexer.ts`), parser
(`src/parsing/parser.ts`), runtime values (`src/runtime/values.ts`),
environments (`src/runtime/env.ts`) and tree-walking evaluator
(`src/runtime/interpreter.ts`), together with theorems settling the
specification claims about them.

Modelling conventions:
* JS strings are Lean `String`s; single-character scans work on `List Char`.
* JS `number` (IEEE double) is modelled by exact rationals `ℚ`.  Every claim
  below exercises only small-integer arithmetic, where the two agree exactly;
  `NaN`/`Infinity` (division by zero, invalid `parseFloat`) lie outside the
  model and the few spots that could produce them are marked in comments.
* The `readonly` field of a runtime value can be `undefined` in the source
  (the interpreter builds number values without it), so it is modelled as
  `Option Bool`; JS truthiness of the field is `· = some true`.
* Mutation of the environment chain is modelled by explicit state passing:
  an operation returns its result together with the updated chain, and a
  thrown exception returns the chain unchanged up to the point of the throw,
  exactly as in-place mutation would leave it.
-/

namespace Paganini

/-- `TokenType` from `lexer.ts` (same constructor order as the const enum). -/
inductive TokenType where
  | Integer | Decimal | String | Identifier | Equals
  | OpenParen | CloseParen | OpenBrace | CloseBrace | OpenBracket | CloseBracket
  | BinaryOperator
  | Let | Const | Symbol | If | Then | Else | While | For | Do | Func | Null
  | SemiColon | Dot | Colon | Comma | EOF
deriving Repr, DecidableEq

/-- `Token` from `lexer.ts`, with the `locationInSource` record flattened.
The parser instantiates the lexer without `SourceProps`, so `filename` is
always `none` here. -/
structure Token where
  type : TokenType
  value : String
  line : Nat
  column : Nat
  position : Nat
  filename : Option String
deriving Repr, DecidableEq

/-- Shorthand for a token without filename (the only kind produced here). -/
def mkToken (t : TokenType) (v : String) (line col pos : Nat) : Token :=
  ⟨t, v, line, col, pos, none⟩

/-- The error taxonomy of `_internals/errors.ts`, kept structured: each
constructor carries the data the corresponding class stores.  `OutOfFuel` is
an artefact of the fuelled parser embedding and is never produced on the
concrete inputs used below. -/
inductive Err where
  | UnrecognizedTokenError (token : Char) (line column position : Nat)
  | UnexpectedTokenError (tokenType : TokenType) (token : String) (line column position : Nat)
  | ParserError (message : String) (token : Token)
  | Exception (message : String)
  | OutOfFuel
deriving Repr, DecidableEq

/-! ## Lexer (`src/parsing/lexer.ts`) -/

/-- `_isAlpha` applied to a one-character string (`this._char`). -/
def jsIsAlphaChar (c : Char) : Bool := c.toUpper != c.toLower

/-- `_isAlpha` on a whole string, as a character list:
`s.toUpperCase() !== s.toLowerCase()`. -/
def jsIsAlphaList (l : List Char) : Bool := l.map Char.toUpper != l.map Char.toLower

/-- `_isInt`: the character code lies between those of `0` and `9`. -/
def jsIsIntChar (c : Char) : Bool := '0' ≤ c && c ≤ '9'

/-- Tail of the regex `^[0-9]*\.?[0-9]*$` after the optional dot. -/
def digitsOnly : List Char → Bool
  | [] => true
  | c :: cs => jsIsIntChar c && digitsOnly cs

/-- Body of the regex `^[0-9]*\.?[0-9]*$`. -/
def floatBody : List Char → Bool
  | [] => true
  | c :: cs => if jsIsIntChar c then floatBody cs else decide (c = '.') && digitsOnly cs

/-- `_isFloat`: not alphabetic and matching `^[0-9]*\.?[0-9]*$`. -/
def jsIsFloat (l : List Char) : Bool := !jsIsAlphaList l && floatBody l

/-- A `while`-loop that accumulates characters satisfying `p` (the shape of
every consuming loop in `Lexer.tokenize`): returns the consumed run and the
remaining characters. -/
def lexWhile (p : Char → Bool) : List Char → List Char × List Char
  | [] => ([], [])
  | c :: cs =>
    if p c then
      let r := lexWhile p cs
      (c :: r.1, r.2)
    else ([], c :: cs)

theorem lexWhile_rest_length (p : Char → Bool) (l : List Char) :
    (lexWhile p l).2.length ≤ l.length := by
  induction l with
  | nil => simp [lexWhile]
  | cons c cs ih =>
    simp only [lexWhile]
    split
    · exact Nat.le_succ_of_le ih
    · simp

theorem lexWhile_length (p : Char → Bool) (l : List Char) :
    (lexWhile p l).1.length + (lexWhile p l).2.length = l.length := by
  induction l with
  | nil => simp [lexWhile]
  | cons c cs ih =>
    simp only [lexWhile]
    split
    · simpa [Nat.succ_add] using ih
    · simp

/-- The quote-stripping step after the string loop in `Lexer.tokenize`
(`charAt(0)`/`charAt(length-1)` checks followed by `slice`). -/
def stripQuotes (l : List Char) : List Char :=
  let l1 := if l.head? = some '"' then l.tail else l
  if l1.getLast? = some '"' then l1.dropLast else l1

/-- The `keywords` table of `lexer.ts`. -/
def keywords (s : String) : Option TokenType :=
  match s with
  | "let" => some .Let
  | "const" => some .Const
  | "symbol" => some .Symbol
  | "if" => some .If
  | "then" => some .Then
  | "else" => some .Else
  | "while" => some .While
  | "for" => some .For
  | "do" => some .Do
  | "func" => some .Func
  | "null" => some .Null
  | _ => none

/-- The `controls` table of `lexer.ts`. -/
def controls (c : Char) : Option TokenType :=
  match c with
  | ';' => some .SemiColon
  | '=' => some .Equals
  | ',' => some .Comma
  | ':' => some .Colon
  | '.' => some .Dot
  | _ => none

/-- `basicMathOperators` (each entry is a one-character string). -/
def basicMathOperators : List Char := ['+', '-', '*', '/', '%']

/-- `controlCharacters` (each entry is a one-character string). -/
def controlCharacters : List Char := [';', '=', ',', ':', '.']

/-- `ignorables`; `this._char` is a single character, so the two-character
entry `"\r\n"` can never match, exactly as in the source. -/
def ignorables : List String := [" ", "\n", "\r", "\r\n", "\t"]

/-- On a one-character run, `_isFloat` accepts exactly digits and the dot. -/
theorem jsIsFloat_single (c : Char) (h : jsIsFloat [c] = true) :
    (jsIsIntChar c || c = '.') = true := by
  cases hd : jsIsIntChar c with
  | true => simp
  | false =>
    simp only [jsIsFloat, floatBody, digitsOnly, hd, Bool.and_eq_true, Bool.not_eq_true',
      if_false, Bool.and_true, decide_eq_true_eq] at h
    have : c = '.' := by simpa using h.2
    simp [this]

/-- The main scan loop of `Lexer.tokenize`, branch for branch.  `rest` is the
suffix of the character array from `this._position`; `pos`, `line`, `col`
mirror `_position`, `_line`, `_column`.  Tokens record the values these
fields have at the moment of the corresponding `tokens.push` in the source
(some branches push before advancing, some after — kept exactly).  Note that
`_line`/`_column` are only ever updated in the whitespace branch.

The loop consumes at least one character per iteration, so it is embedded
with a fuel parameter that `tokenize` instantiates with one more than the
number of characters; `OutOfFuel` is unreachable from `tokenize`. -/
def tokenizeLoop : Nat → List Char → Nat → Nat → Nat → Except Err (List Token)
  | 0, _, _, _, _ => .error .OutOfFuel
  | fuel + 1, rest, pos, line, col =>
  match rest with
  | [] => .ok [mkToken .EOF "EOF" line col pos]
  | c :: cs =>
    -- `isPowerOperator`: current char `*` and one-character lookahead `*`.
    let isPower : Bool := c = '*' && cs.head? = some '*'
    if c = '(' then
      (tokenizeLoop fuel cs (pos + 1) line col).map (mkToken .OpenParen "(" line col pos :: ·)
    else if c = ')' then
      (tokenizeLoop fuel cs (pos + 1) line col).map (mkToken .CloseParen ")" line col pos :: ·)
    else if c = '[' then
      -- intentional naming swap in the source: `[` emits OpenBrace
      (tokenizeLoop fuel cs (pos + 1) line col).map (mkToken .OpenBrace "[" line col pos :: ·)
    else if c = ']' then
      (tokenizeLoop fuel cs (pos + 1) line col).map (mkToken .CloseBrace "]" line col pos :: ·)
    else if c = '{' then
      -- intentional naming swap in the source: `{` emits OpenBracket
      (tokenizeLoop fuel cs (pos + 1) line col).map (mkToken .OpenBracket "\x7b" line col pos :: ·)
    else if c = '}' then
      (tokenizeLoop fuel cs (pos + 1) line col).map (mkToken .CloseBracket "\x7d" line col pos :: ·)
    else if c = '/' && cs.head? = some '/' then
      -- line comment: consume the two slashes, then to end of line (the
      -- newline itself is left for the whitespace branch)
      tokenizeLoop fuel (lexWhile (fun ch => ch != '\n') cs.tail).2
        (pos + 2 + (lexWhile (fun ch => ch != '\n') cs.tail).1.length) line col
    else if c = '-' then
      -- `-` branch: consume the minus, then a run of digits/dots, classify
      -- by `_isFloat`, then advance ONCE MORE (the source calls `_next()`
      -- again before pushing), then push the signed token.
      (tokenizeLoop fuel (lexWhile (fun ch => jsIsIntChar ch || ch = '.') cs).2.tail
          (pos + (lexWhile (fun ch => jsIsIntChar ch || ch = '.') cs).1.length + 2) line col).map
        (mkToken
          (if jsIsFloat (lexWhile (fun ch => jsIsIntChar ch || ch = '.') cs).1 then .Decimal
            else .Integer)
          ⟨'-' :: (lexWhile (fun ch => jsIsIntChar ch || ch = '.') cs).1⟩ line col
          (pos + (lexWhile (fun ch => jsIsIntChar ch || ch = '.') cs).1.length + 2) :: ·)
    else if basicMathOperators.contains c || isPower then
      if isPower then
        (tokenizeLoop fuel cs.tail (pos + 2) line col).map
          (mkToken .BinaryOperator "**" line col pos :: ·)
      else
        (tokenizeLoop fuel cs (pos + 1) line col).map
          (mkToken .BinaryOperator (String.singleton c) line col pos :: ·)
    else if controlCharacters.contains c then
      match controls c with
      | none => .error (.UnrecognizedTokenError c line col pos)
      | some t =>
        (tokenizeLoop fuel cs (pos + 1) line col).map
          (mkToken t (String.singleton c) line col pos :: ·)
    else if c = '"' then
      -- string branch: the loop guard `this._char !== '"'` is tested while
      -- the scanner still sits ON the opening quote, so it runs over the
      -- current suffix `c :: cs` (and in fact stops immediately).
      (tokenizeLoop fuel (lexWhile (fun ch => ch != '"') (c :: cs)).2.tail
          (pos + (lexWhile (fun ch => ch != '"') (c :: cs)).1.length + 1) line col).map
        (mkToken .String ⟨stripQuotes (lexWhile (fun ch => ch != '"') (c :: cs)).1⟩ line col
          (pos + (lexWhile (fun ch => ch != '"') (c :: cs)).1.length) :: ·)
    else
      if jsIsFloat [c] then
        -- numeric branch reached first for ANY digit, since `_isFloat` is
        -- true on every one-character digit string; consumes digits and dots
        (tokenizeLoop fuel (lexWhile (fun ch => jsIsIntChar ch || ch = '.') (c :: cs)).2
            (pos + (lexWhile (fun ch => jsIsIntChar ch || ch = '.') (c :: cs)).1.length) line
            col).map
          (mkToken .Decimal ⟨(lexWhile (fun ch => jsIsIntChar ch || ch = '.') (c :: cs)).1⟩ line
            col (pos + (lexWhile (fun ch => jsIsIntChar ch || ch = '.') (c :: cs)).1.length) :: ·)
      else if jsIsIntChar c then
        (tokenizeLoop fuel (lexWhile jsIsIntChar (c :: cs)).2
            (pos + (lexWhile jsIsIntChar (c :: cs)).1.length) line col).map
          (mkToken .Integer ⟨(lexWhile jsIsIntChar (c :: cs)).1⟩ line col
            (pos + (lexWhile jsIsIntChar (c :: cs)).1.length) :: ·)
      else if jsIsAlphaChar c then
        (tokenizeLoop fuel (lexWhile jsIsAlphaChar (c :: cs)).2
            (pos + (lexWhile jsIsAlphaChar (c :: cs)).1.length) line col).map
          (mkToken
            ((keywords ⟨(lexWhile jsIsAlphaChar (c :: cs)).1⟩).getD .Identifier)
            ⟨(lexWhile jsIsAlphaChar (c :: cs)).1⟩ line col
            (pos + (lexWhile jsIsAlphaChar (c :: cs)).1.length) :: ·)
      else if ignorables.contains (String.singleton c) then
        if c = '\n' || c = '\r' then
          tokenizeLoop fuel cs (pos + 1) (line + 1) 1
        else if c = '\t' then
          tokenizeLoop fuel cs (pos + 1) line (col + 4)
        else if c = ' ' then
          tokenizeLoop fuel cs (pos + 1) line (col + 1)
        else
          tokenizeLoop fuel cs (pos + 1) line col
      else
        .error (.UnrecognizedTokenError c line col pos)

/-- `Lexer.tokenize` on a whole source string (no `SourceProps`).  Every
loop iteration consumes at least one character, so `length + 1` fuel always
reaches the EOF case. -/
def tokenize (source : String) : Except Err (List Token) :=
  tokenizeLoop (source.data.length + 1) source.data 0 1 1

/-! ## Numeric conversions (`parseInt` / `parseFloat` on token text)

JS numbers are IEEE doubles; they are modelled by exact rationals, which
agree on the small integers every claim exercises.  A missing numeric prefix
makes `parseInt`/`parseFloat` return `NaN`, which has no rational
counterpart and is modelled as `0` (never reached by the claims). -/

/-- Value of a digit run, most significant first. -/
def digitsToNat (l : List Char) : Nat :=
  l.foldl (fun acc c => acc * 10 + (c.toNat - 48)) 0

/-- Magnitude part of `parseFloat`: longest prefix `digits[.digits]`;
`none` plays the role of `NaN`. -/
def jsParseFloatMag (l : List Char) : Option ℚ :=
  let ip := lexWhile jsIsIntChar l
  match ip.2 with
  | '.' :: r2 =>
    let fp := lexWhile jsIsIntChar r2
    if ip.1.isEmpty && fp.1.isEmpty then none
    else some ((digitsToNat ip.1 : ℚ) + (digitsToNat fp.1 : ℚ) / ((10 : ℚ) ^ fp.1.length))
  | _ => if ip.1.isEmpty then none else some ((digitsToNat ip.1 : ℚ))

/-- `parseFloat` restricted to the shapes of lexer token values. -/
def jsParseFloat (s : String) : ℚ :=
  match s.data with
  | '-' :: rest => -((jsParseFloatMag rest).getD 0)
  | '+' :: rest => (jsParseFloatMag rest).getD 0
  | l => (jsParseFloatMag l).getD 0

/-- `parseInt` restricted to the shapes of lexer token values. -/
def jsParseInt (s : String) : ℚ :=
  match s.data with
  | '-' :: rest => -((digitsToNat (lexWhile jsIsIntChar rest).1 : ℚ))
  | '+' :: rest => (digitsToNat (lexWhile jsIsIntChar rest).1 : ℚ)
  | l => (digitsToNat (lexWhile jsIsIntChar l).1 : ℚ)

/-! ## AST (`src/parsing/ast.ts`)

One inductive for the `Statement`/`Expression` hierarchy, one constructor
per `kind`.  `Property` nodes are flattened into `(key, optional value)`
pairs inside `ObjectLiteral`.  Numeric literal payloads are the numbers the
parser stores (`parseInt`/`parseFloat` results). -/

inductive Node where
  | Program (body : List Node)
  | IntegerLiteral (value : ℚ)
  | DecimalLiteral (value : ℚ)
  | NullLiteral
  | StringLiteral (value : String)
  | Identifier (symbol : String)
  | BinaryExpression (operator : String) (left right : Node)
  | AssignmentExpression (target value : Node)
  | VariableDeclaration (constant : Bool) (varname : String) (value : Option Node)
  | ObjectLiteral (properties : List (String × Option Node))
  | CallExpression (caller : Node) (args : List Node)
  | MemberExpression (object : Node) (property : Node) (computed : Bool)
deriving Repr

/-- The `kind` string of a node (the discriminant field of the source AST). -/
def Node.kindName : Node → String
  | .Program _ => "Program"
  | .IntegerLiteral _ => "IntegerLiteral"
  | .DecimalLiteral _ => "DecimalLiteral"
  | .NullLiteral => "NullLiteral"
  | .StringLiteral _ => "StringLiteral"
  | .Identifier _ => "Identifier"
  | .BinaryExpression _ _ _ => "BinaryExpression"
  | .AssignmentExpression _ _ => "AssignmentExpression"
  | .VariableDeclaration _ _ _ => "VariableDeclaration"
  | .ObjectLiteral _ => "ObjectLiteral"
  | .CallExpression _ _ => "CallExpression"
  | .MemberExpression _ _ _ => "MemberExpression"

/-! ## Parser (`src/parsing/parser.ts`)

The parser keeps a token array and a cursor; `_next` does not move past the
final (EOF) token.  That is modelled by the remaining-token list `ts` with
`pAdvance` keeping a one-element list in place.  The mutually recursive
descent is embedded with a fuel parameter (decremented at every entry); on
the concrete programs below the fuel is never exhausted. -/

/-- The current token (`this._token`).  The token stream produced by
`tokenize` is never empty (EOF is always appended), so the fallback is
unreachable. -/
def pCur (ts : List Token) : Token :=
  ts.headD (mkToken .EOF "EOF" 0 0 0)

/-- `_next`: advance, but never beyond the last token. -/
def pAdvance : List Token → List Token
  | [] => []
  | [t] => [t]
  | _ :: rest => rest

/-- `_expect`: eat a token of the given type or fail with a `ParserError`
carrying the message and the offending token. -/
def pExpect (tt : TokenType) (msg : String) (ts : List Token) :
    Except Err (Token × List Token) :=
  if (pCur ts).type = tt then .ok (pCur ts, pAdvance ts)
  else .error (.ParserError msg (pCur ts))

mutual

/-- `Parser._parseStatement`. -/
def parseStatement : Nat → List Token → Except Err (Node × List Token)
  | 0, _ => .error .OutOfFuel
  | fuel + 1, ts =>
    match (pCur ts).type with
    | .Let => parseDeclaration fuel ts
    | .Const => parseDeclaration fuel ts
    | _ => parseExpression fuel ts

/-- `Parser._parseDeclaration`. -/
def parseDeclaration : Nat → List Token → Except Err (Node × List Token)
  | 0, _ => .error .OutOfFuel
  | fuel + 1, ts => do
    let t := pCur ts
    let ts := pAdvance ts
    let isConst := t.type = .Const
    let (id, ts) ← pExpect .Identifier
      ("Expected an identifier after the `" ++ (if isConst then "const" else "let")
        ++ "` keyword") ts
    if (pCur ts).type = .SemiColon then
      let ts := pAdvance ts
      -- note: the source eats the semicolon BEFORE raising the
      -- constant-must-be-initialised error, so the error token is the one
      -- after the semicolon
      if isConst then
        .error (.ParserError "Constant declaration must have an initial value" (pCur ts))
      else
        .ok (.VariableDeclaration false id.value none, ts)
    else do
      let (_, ts) ← pExpect .Equals "Expected an equals sign after the variable name" ts
      let (value, ts) ← parseExpression fuel ts
      let (_, ts) ← pExpect .SemiColon "Expected a semicolon after the variable declaration" ts
      .ok (.VariableDeclaration isConst id.value (some value), ts)

/-- `Parser._parseExpression`. -/
def parseExpression : Nat → List Token → Except Err (Node × List Token)
  | 0, _ => .error .OutOfFuel
  | fuel + 1, ts => parseAssignmentExpression fuel ts

/-- `Parser._parseAssignmentExpression`. -/
def parseAssignmentExpression : Nat → List Token → Except Err (Node × List Token)
  | 0, _ => .error .OutOfFuel
  | fuel + 1, ts => do
    let (left, ts) ← parseObjectExpression fuel ts
    if (pCur ts).type = .Equals then
      let ts := pAdvance ts
      let (value, ts) ← parseAssignmentExpression fuel ts
      .ok (.AssignmentExpression left value, ts)
    else
      .ok (left, ts)

/-- `Parser._parseObjectExpression` (object literals open with the
curly-brace token, named `OpenBracket` by the lexer). -/
def parseObjectExpression : Nat → List Token → Except Err (Node × List Token)
  | 0, _ => .error .OutOfFuel
  | fuel + 1, ts => do
    if (pCur ts).type ≠ .OpenBracket then parseAdditiveExpression fuel ts
    else do
      let ts := pAdvance ts
      let (props, ts) ← parseObjectProps fuel ts []
      let (_, ts) ← pExpect .CloseBracket "Object literal must end with a closing Bracket" ts
      .ok (.ObjectLiteral props, ts)

/-- The property `while`-loop inside `_parseObjectExpression`. -/
def parseObjectProps : Nat → List Token → List (String × Option Node) →
    Except Err (List (String × Option Node) × List Token)
  | 0, _, _ => .error .OutOfFuel
  | fuel + 1, ts, props => do
    if (pCur ts).type ≠ .EOF ∧ (pCur ts).type ≠ .CloseBracket then do
      let (key, ts) ← pExpect .Identifier "Object literal property must have a key" ts
      if (pCur ts).type = .Comma then
        let ts := pAdvance ts
        parseObjectProps fuel ts (props ++ [(key.value, none)])
      else if (pCur ts).type = .CloseBracket then
        parseObjectProps fuel ts (props ++ [(key.value, none)])
      else do
        let (_, ts) ← pExpect .Colon "Missing colon after object literal property key" ts
        let (value, ts) ← parseExpression fuel ts
        if (pCur ts).type ≠ .CloseBracket then do
          let (_, ts) ← pExpect .Comma
            "Object literal properties must be separated by a comma" ts
          parseObjectProps fuel ts (props ++ [(key.value, some value)])
        else
          parseObjectProps fuel ts (props ++ [(key.value, some value)])
    else
      .ok (props, ts)

/-- `Parser._parseAdditiveExpression` (note: the loop tests the token VALUE, not the type). -/
def parseAdditiveExpression : Nat → List Token → Except Err (Node × List Token)
  | 0, _ => .error .OutOfFuel
  | fuel + 1, ts => do
    let (l, ts) ← parseMultiplicativeExpression fuel ts
    parseAdditiveLoop fuel ts l

/-- The operator loop of `_parseAdditiveExpression`. -/
def parseAdditiveLoop : Nat → List Token → Node → Except Err (Node × List Token)
  | 0, _, _ => .error .OutOfFuel
  | fuel + 1, ts, l => do
    if (pCur ts).value = "+" ∨ (pCur ts).value = "-" then
      let o := (pCur ts).value
      let ts := pAdvance ts
      let (r, ts) ← parseMultiplicativeExpression fuel ts
      parseAdditiveLoop fuel ts (.BinaryExpression o l r)
    else
      .ok (l, ts)

/-- `Parser._parseMultiplicativeExpression` (`**` sits at the same
precedence tier as `*`, `/`, `%`, and the loop again tests token VALUES). -/
def parseMultiplicativeExpression : Nat → List Token → Except Err (Node × List Token)
  | 0, _ => .error .OutOfFuel
  | fuel + 1, ts => do
    let (l, ts) ← parseCallMemberExpression fuel ts
    parseMultiplicativeLoop fuel ts l

/-- The operator loop of `_parseMultiplicativeExpression`. -/
def parseMultiplicativeLoop : Nat → List Token → Node → Except Err (Node × List Token)
  | 0, _, _ => .error .OutOfFuel
  | fuel + 1, ts, l => do
    if (pCur ts).value = "*" ∨ (pCur ts).value = "**" ∨ (pCur ts).value = "/"
        ∨ (pCur ts).value = "%" then
      let o := (pCur ts).value
      let ts := pAdvance ts
      let (r, ts) ← parseCallMemberExpression fuel ts
      parseMultiplicativeLoop fuel ts (.BinaryExpression o l r)
    else
      .ok (l, ts)

/-- `Parser._parseCallMemberExpression`. -/
def parseCallMemberExpression : Nat → List Token → Except Err (Node × List Token)
  | 0, _ => .error .OutOfFuel
  | fuel + 1, ts => do
    let (m, ts) ← parseMemberExpression fuel ts
    if (pCur ts).type = .OpenParen then parseCallExpression fuel ts m
    else .ok (m, ts)

/-- `Parser._parseMemberExpression` (dot access and `[`-indexed access,
the latter via the square-bracket token named `OpenBrace` by the lexer). -/
def parseMemberExpression : Nat → List Token → Except Err (Node × List Token)
  | 0, _ => .error .OutOfFuel
  | fuel + 1, ts => do
    let (o, ts) ← parsePrimaryExpression fuel ts
    parseMemberLoop fuel ts o

/-- The access loop of `_parseMemberExpression`. -/
def parseMemberLoop : Nat → List Token → Node → Except Err (Node × List Token)
  | 0, _, _ => .error .OutOfFuel
  | fuel + 1, ts, o => do
    if (pCur ts).type = .Dot ∨ (pCur ts).type = .OpenBrace then
      let op := pCur ts
      let ts := pAdvance ts
      if op.type = .Dot then do
        let (prop, ts) ← parsePrimaryExpression fuel ts
        match prop with
        | .Identifier _ => parseMemberLoop fuel ts (.MemberExpression o prop false)
        | _ =>
          .error (.ParserError "Cannot use dot operator without a right-hand side identifier" op)
      else do
        let (prop, ts) ← parseExpression fuel ts
        let (_, ts) ← pExpect .CloseBrace
          "Expected a closing brace after the computed property name" ts
        parseMemberLoop fuel ts (.MemberExpression o prop true)
    else
      .ok (o, ts)

/-- `Parser._parseCallExpression`. -/
def parseCallExpression : Nat → List Token → Node → Except Err (Node × List Token)
  | 0, _, _ => .error .OutOfFuel
  | fuel + 1, ts, caller => do
    let (args, ts) ← parseArguments fuel ts
    let e := Node.CallExpression caller args
    if (pCur ts).type = .OpenParen then parseCallExpression fuel ts e
    else .ok (e, ts)

/-- `Parser._parseArguments`. -/
def parseArguments : Nat → List Token → Except Err (List Node × List Token)
  | 0, _ => .error .OutOfFuel
  | fuel + 1, ts => do
    let (_, ts) ← pExpect .OpenParen "Expected an opening parenthesis before the arguments list" ts
    let (args, ts) ←
      if (pCur ts).type = .CloseParen then pure (([] : List Node), ts)
      else parseArgumentsList fuel ts
    let (_, ts) ← pExpect .CloseParen "Expected a closing parenthesis after the arguments list" ts
    .ok (args, ts)

/-- `Parser._parseArgumentsList`. -/
def parseArgumentsList : Nat → List Token → Except Err (List Node × List Token)
  | 0, _ => .error .OutOfFuel
  | fuel + 1, ts => do
    let (first, ts) ← parseAssignmentExpression fuel ts
    parseArgumentsLoop fuel ts [first]

/-- The comma loop of `_parseArgumentsList`. -/
def parseArgumentsLoop : Nat → List Token → List Node → Except Err (List Node × List Token)
  | 0, _, _ => .error .OutOfFuel
  | fuel + 1, ts, args => do
    if (pCur ts).type = .Comma then
      let ts := pAdvance ts
      let (a, ts) ← parseAssignmentExpression fuel ts
      parseArgumentsLoop fuel ts (args ++ [a])
    else
      .ok (args, ts)

/-- `Parser._parsePrimaryExpression`. -/
def parsePrimaryExpression : Nat → List Token → Except Err (Node × List Token)
  | 0, _ => .error .OutOfFuel
  | fuel + 1, ts =>
    match (pCur ts).type with
    | .Identifier => .ok (.Identifier (pCur ts).value, pAdvance ts)
    | .Integer => .ok (.IntegerLiteral (jsParseInt (pCur ts).value), pAdvance ts)
    | .Decimal => .ok (.DecimalLiteral (jsParseFloat (pCur ts).value), pAdvance ts)
    | .OpenParen => do
      let ts := pAdvance ts
      let (e, ts) ← parseExpression fuel ts
      let (_, ts) ← pExpect .CloseParen
        "Unexpected token found inside parenthesied expression. Expected a closing parenthesis" ts
      .ok (e, ts)
    | .Null => .ok (.NullLiteral, pAdvance ts)
    | _ =>
      .error (.UnexpectedTokenError (pCur ts).type (pCur ts).value (pCur ts).line
        (pCur ts).column (pCur ts).position)

end

/-- The statement loop of `Parser.parse` (`while (!this._eof())`). -/
def parseLoop : Nat → List Token → List Node → Except Err Node
  | 0, _, _ => .error .OutOfFuel
  | fuel + 1, ts, body =>
    if (pCur ts).type = .EOF then .ok (.Program body)
    else do
      let (stmt, ts) ← parseStatement fuel ts
      parseLoop fuel ts (body ++ [stmt])

/-- `Parser.parse` over a token stream, with ample fuel for the descent. -/
def parseTokens (toks : List Token) : Except Err Node :=
  parseLoop ((toks.length + 1) * 64) toks []

/-- The `Parser` constructor tokenizes its source, and `parse()` then
consumes the stream: source text to AST. -/
def parseSource (src : String) : Except Err Node := do
  let toks ← tokenize src
  parseTokens toks

/-! ## Runtime values (`src/runtime/values.ts`)

Each variant carries its payload plus the `readonly` flag, which the
interpreter sometimes leaves `undefined` (`Option Bool`, see the header).
A native callable is identified by which host function its
`invokableHandler` is (the handlers are closed arrow functions, so a tag
is a faithful rendering). -/

/-- The two native handlers installed by `createGlobalEnvironment`. -/
inductive NativeTag where
  | print | printf
deriving Repr, DecidableEq

inductive RValue where
  | null (readonly : Option Bool)
  | number (value : ℚ) (readonly : Option Bool)
  | boolean (value : Bool) (readonly : Option Bool)
  | string (value : String) (readonly : Option Bool)
  | symbol (id : Nat) (readonly : Option Bool)
  | object (properties : List (String × RValue)) (readonly : Option Bool)
  | nativeFn (tag : NativeTag) (readonly : Option Bool)
deriving Repr

/-- The `readonly` field of a value. -/
def RValue.readonlyFlag : RValue → Option Bool
  | .null ro => ro
  | .number _ ro => ro
  | .boolean _ ro => ro
  | .string _ ro => ro
  | .symbol _ ro => ro
  | .object _ ro => ro
  | .nativeFn _ ro => ro

/-- Replace the `readonly` field of a value. -/
def RValue.withReadonly : RValue → Option Bool → RValue
  | .null _, ro => .null ro
  | .number v _, ro => .number v ro
  | .boolean v _, ro => .boolean v ro
  | .string v _, ro => .string v ro
  | .symbol v _, ro => .symbol v ro
  | .object v _, ro => .object v ro
  | .nativeFn v _, ro => .nativeFn v ro

/-- JS truthiness of the (possibly `undefined`) `readonly` field. -/
def isTruthyFlag : Option Bool → Bool
  | some true => true
  | _ => false

/-- `runtimeValueToString` for numbers: `String(value)`.  JS prints the
decimal expansion of a double; on integral values (the only ones the claims
print) this agrees with printing the integer. -/
def ratToDisplayString (q : ℚ) : String :=
  if q.den = 1 then toString q.num else toString q.num ++ "/" ++ toString q.den

/-- `runtimeValueToString` from `values.ts`.  Remarks on the exotic cases:
the handlers registered by `createGlobalEnvironment` are anonymous arrow
functions, so `invokableHandler.name` is the empty string; for objects the
source calls `JSON.stringify` on a Map ITERATOR, which serialises as the
two-character text of an empty JS object; a symbol stringifies via
`String(Symbol())`. -/
def runtimeValueToString : RValue → String
  | .boolean b _ => toString b
  | .nativeFn _ _ => "func () \x7b [native code] \x7d"
  | .null _ => "[null]"
  | .number q _ => ratToDisplayString q
  | .string s _ => s
  | .symbol _ _ => "[Symbol Symbol()]"
  | .object _ _ => "\x7b\x7d"

/-! ## Environments (`src/runtime/env.ts`)

An `Environment` owns a `Map` of variables and an optional parent; a chain
of scopes is modelled as the list of scope maps from the innermost scope
outwards (head = `this._vars`, tail = the parent chain).  The list is never
empty for a real environment.  `Map.has`/`Map.get`/`Map.set` on the
insertion-ordered JS map are modelled on association lists. -/

abbrev Scope := List (String × RValue)

abbrev EnvC := List Scope

/-- `Map.has`. -/
def mapHas (m : Scope) (k : String) : Bool := m.any (fun e => e.1 = k)

/-- `Map.get` (as an option; `has` and `get`-is-`some` coincide). -/
def mapGet (m : Scope) (k : String) : Option RValue :=
  (m.find? (fun e => e.1 = k)).map (·.2)

/-- `Map.set`: update the existing slot in place, else append. -/
def mapSet (m : Scope) (k : String) (v : RValue) : Scope :=
  match m with
  | [] => [(k, v)]
  | e :: rest => if e.1 = k then (k, v) :: rest else e :: mapSet rest k v

/-- `Environment.declare`: fails when the name exists in THIS scope; imposes
the explicit `readonly` argument on the value only when the flag already on the value
is not a boolean.  Errors leave the chain untouched.  The empty chain does
not correspond to any source state (an `Environment` always owns a map). -/
def declare (env : EnvC) (name : String) (value : RValue) (ro : Option Bool) :
    Except Err RValue × EnvC :=
  match env with
  | [] => (.error (.Exception "empty environment chain"), [])
  | vars :: rest =>
    if mapHas vars name then
      (.error (.Exception ("Cannot redeclare variable \x27" ++ name
        ++ "\x27 because it is already declared in this scope")), vars :: rest)
    else
      let v := if value.readonlyFlag = none ∧ ro ≠ none then value.withReadonly ro else value
      (.ok v, mapSet vars name v :: rest)

/-- `Environment.resolve` + `lookup`: walk the chain from the innermost
scope; the default undefined-variable message is raised at the root. -/
def lookup (env : EnvC) (name : String) : Except Err RValue :=
  match env with
  | [] => .error (.Exception ("Undefined variable \x27" ++ name ++ "\x27"))
  | vars :: rest =>
    match mapGet vars name with
    | some v => .ok v
    | none => lookup rest name

/-- The recursive resolution part of `Environment.assign`: ancestor scopes
are resolved WITHOUT the custom message (the source forwards
`resolve(name)` to the parent without the `error` argument). -/
def assignGo (env : EnvC) (name : String) (value : RValue) : Except Err RValue × EnvC :=
  match env with
  | [] => (.error (.Exception ("Undefined variable \x27" ++ name ++ "\x27")), [])
  | vars :: rest =>
    match mapGet vars name with
    | some old =>
      if isTruthyFlag old.readonlyFlag then
        (.error (.Exception ("Cannot assign constant variable \x27" ++ name ++ "\x27")),
          vars :: rest)
      else
        (.ok value, mapSet vars name value :: rest)
    | none =>
      let r := assignGo rest name value
      (r.1, vars :: r.2)

/-- `Environment.assign`: resolve the owning scope (custom
cannot-assign-to-undefined message only if the top environment itself is the
parentless root), fail on a readonly binding, otherwise overwrite the slot.
Errors leave the chain untouched. -/
def assign (env : EnvC) (name : String) (value : RValue) : Except Err RValue × EnvC :=
  match env with
  | [] => (.error (.Exception ("Cannot assing to undefined variable \x27" ++ name ++ "\x27")), [])
  | vars :: rest =>
    match mapGet vars name with
    | some old =>
      if isTruthyFlag old.readonlyFlag then
        (.error (.Exception ("Cannot assign constant variable \x27" ++ name ++ "\x27")),
          vars :: rest)
      else
        (.ok value, mapSet vars name value :: rest)
    | none =>
      match rest with
      | [] =>
        (.error (.Exception ("Cannot assing to undefined variable \x27" ++ name ++ "\x27")),
          [vars])
      | _ :: _ =>
        let r := assignGo rest name value
        (r.1, vars :: r.2)

/-- `createGlobalEnvironment`: the bootstrap bindings, in declaration order.
`print`/`printf` wrap `MAKE_NATIVE_METHOD(handler, true)` (readonly already
`true`), `math` is a readonly object with an EMPTY property map (the binding
in `env.ts` is built inline, not from the native math namespace). -/
def createGlobalEnvironment (parent : EnvC) : EnvC :=
  let e0 : EnvC := [] :: parent
  let e1 := (declare e0 "null" (.null (some true)) none).2
  let e2 := (declare e1 "true" (.boolean true (some true)) none).2
  let e3 := (declare e2 "false" (.boolean false (some true)) none).2
  let e4 := (declare e3 "printf" (.nativeFn .printf (some true)) none).2
  let e5 := (declare e4 "print" (.nativeFn .print (some true)) (some true)).2
  let e6 := (declare e5 "math" (.object [] (some true)) (some true)).2
  e6

/-! ## Native handlers (`env.ts` bindings + `_internals/native/print.ts`)

The REPL runs under Node (`isBrowser()` is false there), so `print` writes
`runtimeValueToString(message)` to stdout and `printf` writes a formatted
line.  A handler returns the list of strings it writes, in order, together
with its result; an exception carries no writes. -/

/-- The handler of the `print` binding from `createGlobalEnvironment`. -/
def printNative (args : List RValue) : List String × Except Err RValue :=
  if args.length > 1 then
    ([], .error (.Exception "print() takes only one argument"))
  else
    -- `args.shift() ?? MAKE_NULL()`
    ([runtimeValueToString (args.headD (.null (some false)))], .ok (.null (some false)))

/-- The handler of the `printf` binding.  `util.format` with no `%` placeholders
joins the stringified arguments with single spaces (the only case reachable
here is modelled); a missing trailing newline is appended. -/
def printfNative (args : List RValue) : List String × Except Err RValue :=
  let msg := args.headD (.null (some false))
  let rest := args.tail
  let s := String.intercalate " " ((msg :: rest).map runtimeValueToString)
  let s2 := if s.data.getLast? = some '\n' then s else s ++ "\n"
  ([s2], .ok (.null (some false)))

/-- Dispatch a native callable (`f.invokableHandler(env, ...args)`).  Both
handlers ignore their environment argument. -/
def invokeNative (tag : NativeTag) (env : EnvC) (args : List RValue) :
    Except Err RValue × EnvC × List String :=
  match tag with
  | .print => let r := printNative args; (r.2, env, r.1)
  | .printf => let r := printfNative args; (r.2, env, r.1)

/-! ## Evaluator (`src/runtime/interpreter.ts`)

`evaluate(node, env)` is embedded as `evalNode`, which returns the result
(or thrown exception), the environment chain as left by the in-place
mutations performed before returning or throwing, and the stdout writes
performed, in order. -/

/-- `x ** n` for natural `n` (the integral fragment of `Math.pow`). -/
def ratNpow (a : ℚ) : Nat → ℚ
  | 0 => 1
  | n + 1 => ratNpow a n * a

/-- JS `**`.  Fractional exponents give irrational results that live outside
the rational model (never exercised by the claims); `0 ** negative` would be
Infinity and is likewise outside the model. -/
def jsPow (a b : ℚ) : ℚ :=
  if b.den = 1 then
    if 0 ≤ b.num then ratNpow a b.num.toNat
    else (ratNpow a (-b.num).toNat)⁻¹
  else 0

/-- Truncation toward zero of a rational (the rounding JS `%` uses). -/
def ratTrunc (q : ℚ) : Int := Int.tdiv q.num (Int.ofNat q.den)

/-- JS `%` (sign follows the dividend).  `x % 0` is NaN in JS, outside the
rational model (flagged as deliberately unguarded in the source). -/
def jsMod (a b : ℚ) : ℚ := if b = 0 then 0 else a - b * ((ratTrunc (a / b) : ℤ) : ℚ)

/-- JS `/`.  `x / 0` is Infinity/NaN in JS, outside the rational model
(flagged as deliberately unguarded in the source). -/
def jsDiv (a b : ℚ) : ℚ := a / b

/-- `_evalNumericExpr`: the operator switch over two number operands.  The
result value is built without a `readonly` field. -/
def evalNumericExpr (l r : ℚ) (op : String) : Except Err RValue :=
  match op with
  | "+" => .ok (.number (l + r) none)
  | "-" => .ok (.number (l - r) none)
  | "*" => .ok (.number (l * r) none)
  | "/" => .ok (.number (jsDiv l r) none)
  | "%" => .ok (.number (jsMod l r) none)
  | "**" => .ok (.number (jsPow l r) none)
  | _ => .error (.Exception ("Unknown operator: " ++ op))

mutual

/-- `evaluate(node, env)`, case for case.  The recursion is embedded with a
fuel parameter (strictly deeper than any call tree on the concrete programs
used below; `runSource` instantiates it with the node size, which bounds the
call depth). -/
def evalNode : Nat → Node → EnvC → Except Err RValue × EnvC × List String
  | 0, _, env => (.error .OutOfFuel, env, [])
  | fuel + 1, node, env =>
  match node with
  | .IntegerLiteral v => (.ok (.number v none), env, [])
  | .DecimalLiteral v => (.ok (.number v none), env, [])
  | .NullLiteral => (.ok (.null (some false)), env, [])
  | .BinaryExpression op l r =>
    -- `_evalBinaryExpr`: both operands eagerly, left first; non-number
    -- combinations silently produce `MAKE_NULL()`
    (match evalNode fuel l env with
     | (.error e, env1, out1) => (.error e, env1, out1)
     | (.ok lv, env1, out1) =>
       match evalNode fuel r env1 with
       | (.error e, env2, out2) => (.error e, env2, out1 ++ out2)
       | (.ok rv, env2, out2) =>
         match lv, rv with
         | .number ln _, .number rn _ => (evalNumericExpr ln rn op, env2, out1 ++ out2)
         | _, _ => (.ok (.null (some false)), env2, out1 ++ out2))
  | .Identifier s => (lookup env s, env, [])
  | .VariableDeclaration c n val =>
    -- `_evalDeclaration`: note `v.constant` only reaches the value through
    -- `MAKE_NULL(v.constant)` in the initialiser-less branch
    (match val with
     | some vexpr =>
       (match evalNode fuel vexpr env with
        | (.error e, env1, out) => (.error e, env1, out)
        | (.ok v, env1, out) =>
          let r := declare env1 n v none
          (r.1, r.2, out))
     | none =>
       let r := declare env n (.null (some c)) none
       (r.1, r.2, []))
  | .AssignmentExpression target value =>
    -- `_evalAssignment`: the target-kind check precedes evaluation of the
    -- value expression
    (match target with
     | .Identifier s =>
       (match evalNode fuel value env with
        | (.error e, env1, out) => (.error e, env1, out)
        | (.ok v, env1, out) =>
          let r := assign env1 s v
          (r.1, r.2, out))
     | _ =>
       (.error (.Exception ("The target of an assignment must be an identifier, but got "
         ++ target.kindName)), env, []))
  | .ObjectLiteral props => evalProps fuel props env []
  | .CallExpression caller argExprs =>
    -- `_evalCall`: ALL arguments are evaluated first (`expr.arguments.map`),
    -- only then is the caller checked to be an Identifier, evaluated, and
    -- checked to be a native callable
    (match evalNodeList fuel argExprs env with
     | (.error e, env1, out) => (.error e, env1, out)
     | (.ok args, env1, out) =>
       match caller with
       | .Identifier sym =>
         (match evalNode fuel (.Identifier sym) env1 with
          | (.error e, env2, out2) => (.error e, env2, out ++ out2)
          | (.ok f, env2, out2) =>
            match f with
            | .nativeFn tag _ =>
              let r := invokeNative tag env2 args
              (r.1, r.2.1, out ++ out2 ++ r.2.2)
            | _ =>
              (.error (.Exception ("Failed to invoke handler \x60" ++ sym ++ "\x60")), env2,
                out ++ out2))
       | _ =>
         (.error (.Exception ("The caller of a call expression must be an identifier, but got "
           ++ caller.kindName)), env1, out))
  | .Program body => evalProgramBody fuel body env
  | node =>
    (.error (.Exception ("The node \x27" ++ node.kindName
      ++ "\x27 is not yet implemented in the interpreter")), env, [])

/-- `_evalProgram`: statements in order, value of the last one (`MAKE_NULL()`
for an empty body). -/
def evalProgramBody : Nat → List Node → EnvC → Except Err RValue × EnvC × List String
  | 0, _, env => (.error .OutOfFuel, env, [])
  | fuel + 1, stmts, env =>
  match stmts with
  | [] => (.ok (.null (some false)), env, [])
  | s :: rest =>
    (match evalNode fuel s env with
     | (.error e, env1, out) => (.error e, env1, out)
     | (.ok v, env1, out) =>
       match rest with
       | [] => (.ok v, env1, out)
       | _ :: _ =>
         let r := evalProgramBody fuel rest env1
         (r.1, r.2.1, out ++ r.2.2))

/-- Left-to-right evaluation of the argument expressions of a call
(`expr.arguments.map(arg => evaluate(arg, env))`). -/
def evalNodeList : Nat → List Node → EnvC → Except Err (List RValue) × EnvC × List String
  | 0, _, env => (.error .OutOfFuel, env, [])
  | fuel + 1, nodes, env =>
  match nodes with
  | [] => (.ok [], env, [])
  | e :: rest =>
    (match evalNode fuel e env with
     | (.error err, env1, out) => (.error err, env1, out)
     | (.ok v, env1, out) =>
       match evalNodeList fuel rest env1 with
       | (.error err, env2, out2) => (.error err, env2, out ++ out2)
       | (.ok vs, env2, out2) => (.ok (v :: vs), env2, out ++ out2))

/-- `_evalObject`: each property either evaluates its value expression or
(shorthand) looks the key up in the environment; entries accumulate in a
fresh map.  The resulting object value carries no `readonly` field. -/
def evalProps : Nat → List (String × Option Node) → EnvC → Scope →
    Except Err RValue × EnvC × List String
  | 0, _, env, _ => (.error .OutOfFuel, env, [])
  | fuel + 1, props, env, acc =>
  match props with
  | [] => (.ok (.object acc none), env, [])
  | (k, vOpt) :: rest =>
    (match vOpt with
     | some vexpr =>
       (match evalNode fuel vexpr env with
        | (.error e, env1, out) => (.error e, env1, out)
        | (.ok v, env1, out) =>
          let r := evalProps fuel rest env1 (mapSet acc k v)
          (r.1, r.2.1, out ++ r.2.2))
     | none =>
       (match lookup env k with
        | .error e => (.error e, env, [])
        | .ok v => evalProps fuel rest env (mapSet acc k v)))

end

mutual

/-- A size measure on nodes bounding the depth of the evaluation call tree
(used to instantiate the evaluator fuel). -/
def nodeSize : Node → Nat
  | .Program body => 1 + nodeListSize body
  | .IntegerLiteral _ => 1
  | .DecimalLiteral _ => 1
  | .NullLiteral => 1
  | .StringLiteral _ => 1
  | .Identifier _ => 1
  | .BinaryExpression _ l r => 1 + nodeSize l + nodeSize r
  | .AssignmentExpression t v => 1 + nodeSize t + nodeSize v
  | .VariableDeclaration _ _ (some v) => 1 + nodeSize v
  | .VariableDeclaration _ _ none => 1
  | .ObjectLiteral props => 1 + propsSize props
  | .CallExpression c args => 1 + nodeSize c + nodeListSize args
  | .MemberExpression o p _ => 1 + nodeSize o + nodeSize p

def nodeListSize : List Node → Nat
  | [] => 1
  | n :: rest => 1 + nodeSize n + nodeListSize rest

def propsSize : List (String × Option Node) → Nat
  | [] => 1
  | (_, some v) :: rest => 1 + nodeSize v + propsSize rest
  | (_, none) :: rest => 1 + propsSize rest

end

/-- The whole pipeline on one source string: tokenize, parse, evaluate —
what the REPL in `main.ts` does per input line. -/
def runSource (src : String) (env : EnvC) : Except Err RValue × EnvC × List String :=
  match parseSource src with
  | .error e => (.error e, env, [])
  | .ok ast => evalNode (nodeSize ast) ast env

/-! ## Shared lemmas -/

/-- The characters accepted by `_isInt` are exactly the ten digits. -/
theorem digit_char_enum (c : Char) (h : jsIsIntChar c = true) :
    c = '0' ∨ c = '1' ∨ c = '2' ∨ c = '3' ∨ c = '4' ∨ c = '5' ∨ c = '6' ∨ c = '7'
      ∨ c = '8' ∨ c = '9' := by
  simp only [jsIsIntChar, Bool.and_eq_true, decide_eq_true_eq] at h
  have e1 : 48 ≤ c.toNat := h.1
  have e2 : c.toNat ≤ 57 := h.2
  have hofn : Char.ofNat c.toNat = c := Char.ofNat_toNat c
  interval_cases hn : c.toNat <;> (subst hofn; decide)

/-- A `Map.set` entry is found by a subsequent `Map.get` of the same key. -/
theorem mapGet_mapSet_self (m : Scope) (k : String) (v : RValue) :
    mapGet (mapSet m k v) k = some v := by
  induction m with
  | nil => simp [mapSet, mapGet, List.find?]
  | cons e rest ih =>
    by_cases he : e.1 = k
    · simp [mapSet, he, mapGet, List.find?]
    · simp only [mapSet, he, if_neg, ite_false, mapGet, List.find?, decide_eq_true_eq] at ih ⊢
      simpa [he] using ih

/-! ## Claim C3 — classification of digit runs -/

/-- C3 (counterexample): the claim says a maximal digit run without a
decimal point lexes as an `Integer` token; but `tokenize "5"` produces a
token of type `Decimal` (and `Decimal` is a different type than `Integer`),
because the single-character `_isFloat` test accepts every digit and its
branch precedes the `_isInt` branch. -/
theorem C3_counterexample :
    tokenize "5" = .ok [mkToken .Decimal "5" 1 1 1, mkToken .EOF "EOF" 1 1 1]
      ∧ TokenType.Decimal ≠ TokenType.Integer :=
  ⟨rfl, by decide⟩

/-- C3 (amended): at any scan position holding a digit, the lexer emits a
single token of type `Decimal` (never `Integer`) whose value is the maximal
run of digits and dots starting there, and scanning resumes immediately
after that run. -/
theorem C3_digit_run_decimal (fuel : Nat) (c : Char) (cs : List Char) (pos line col : Nat)
    (h : jsIsIntChar c = true) :
    tokenizeLoop (fuel + 1) (c :: cs) pos line col =
      (tokenizeLoop fuel (lexWhile (fun ch => jsIsIntChar ch || ch = '.') (c :: cs)).2
          (pos + (lexWhile (fun ch => jsIsIntChar ch || ch = '.') (c :: cs)).1.length) line
          col).map
        (mkToken .Decimal ⟨(lexWhile (fun ch => jsIsIntChar ch || ch = '.') (c :: cs)).1⟩ line col
          (pos + (lexWhile (fun ch => jsIsIntChar ch || ch = '.') (c :: cs)).1.length) :: ·) := by
  rcases digit_char_enum c h with h | h | h | h | h | h | h | h | h | h <;> subst h <;> rfl

/-- C3 (witness for the amended theorem at the digit `5`). -/
theorem C3_digit_run_decimal_witness :
    tokenizeLoop (0 + 1) ('5' :: []) 0 1 1 =
      (tokenizeLoop 0 (lexWhile (fun ch => jsIsIntChar ch || ch = '.') ('5' :: [])).2
          (0 + (lexWhile (fun ch => jsIsIntChar ch || ch = '.') ('5' :: [])).1.length) 1 1).map
        (mkToken .Decimal ⟨(lexWhile (fun ch => jsIsIntChar ch || ch = '.') ('5' :: [])).1⟩ 1 1
          (0 + (lexWhile (fun ch => jsIsIntChar ch || ch = '.') ('5' :: [])).1.length) :: ·) :=
  C3_digit_run_decimal 0 '5' [] 0 1 1 rfl

/-! ## Claim C4 — the `-` character at the lexer -/

/-- C4 (counterexample): the claim says a binary-operator `-` lexes as a
`BinaryOperator` token and that after folding a signed literal scanning
resumes immediately after the digits.  In `"1 - 2"` no `BinaryOperator`
token appears at all (the `-` yields a `Decimal` token with value `"-"`),
and in `"-5;"` the semicolon after the digits is skipped, so no `SemiColon`
token is produced. -/
theorem C4_counterexample :
    tokenize "1 - 2"
        = .ok [mkToken .Decimal "1" 1 1 1, mkToken .Decimal "-" 1 2 4,
            mkToken .Decimal "2" 1 2 5, mkToken .EOF "EOF" 1 2 5]
      ∧ ([mkToken .Decimal "1" 1 1 1, mkToken .Decimal "-" 1 2 4,
            mkToken .Decimal "2" 1 2 5, mkToken .EOF "EOF" 1 2 5].all
          (fun t => t.type != .BinaryOperator)) = true
      ∧ tokenize "-5;" = .ok [mkToken .Decimal "-5" 1 1 3, mkToken .EOF "EOF" 1 1 3] :=
  ⟨rfl, by decide, rfl⟩

/-- C4 (amended): a `-` at any scan position always enters the
signed-literal branch: the lexer consumes the (possibly empty) run `n` of
digits and dots after the minus, emits ONE token with text `-` ++ `n` —
typed `Decimal` when `n` matches the float pattern (in particular for every
plain digit run and for the empty run) and `Integer` otherwise — and then
advances once more, so scanning resumes at the SECOND character after the
run; no `BinaryOperator` token is ever produced for `-`. -/
theorem C4_minus_folding (fuel : Nat) (cs : List Char) (pos line col : Nat) :
    tokenizeLoop (fuel + 1) ('-' :: cs) pos line col =
      (tokenizeLoop fuel (lexWhile (fun ch => jsIsIntChar ch || ch = '.') cs).2.tail
          (pos + (lexWhile (fun ch => jsIsIntChar ch || ch = '.') cs).1.length + 2) line col).map
        (mkToken
          (if jsIsFloat (lexWhile (fun ch => jsIsIntChar ch || ch = '.') cs).1 then .Decimal
            else .Integer)
          ⟨'-' :: (lexWhile (fun ch => jsIsIntChar ch || ch = '.') cs).1⟩ line col
          (pos + (lexWhile (fun ch => jsIsIntChar ch || ch = '.') cs).1.length + 2) :: ·) :=
  rfl

/-! ## Claim C5 — double-quoted string literals -/

/-- C5: the claim (and the evident intent of the quote-stripping code after
the loop) is that `tokenize` emits ONE `String` token holding the text
between the quotes.  In fact the loop guard `this._char !== '"'` is tested
while the scanner still sits on the OPENING quote, so the loop never runs:
the source `"ab"` (four characters) yields an empty `String` token at the
opening quote, then the content lexes as the identifier `ab`, then the
closing quote yields another empty `String` token. -/
theorem C5_string_lexing :
    tokenize "\"ab\""
      = .ok [mkToken .String "" 1 1 0, mkToken .Identifier "ab" 1 1 3,
          mkToken .String "" 1 1 3, mkToken .EOF "EOF" 1 1 4] :=
  rfl

/-! ## Claim C1 — declaration round trip -/

/-- Evaluating the AST of `let x = 2 + 3;` in a chain whose innermost scope
has no `x` binds `x` to `Number(5)` in that scope, for any sufficient fuel
in successor form. -/
theorem evalNode_let_x (fuel : Nat) (vars : Scope) (rest : EnvC)
    (h : mapHas vars "x" = false) :
    evalNode (fuel + 5)
        (.Program [.VariableDeclaration false "x"
          (some (.BinaryExpression "+" (.DecimalLiteral 2) (.DecimalLiteral 3)))])
        (vars :: rest)
      = (.ok (.number 5 none), mapSet vars "x" (.number 5 none) :: rest, []) := by
  have h23 : evalNumericExpr 2 3 "+" = .ok (.number 5 none) := by
    simp only [evalNumericExpr]
    norm_num
  simp [evalNode, evalProgramBody, h23, declare, h, RValue.readonlyFlag]

/-- Evaluating the AST of the bare expression statement `x` returns the
looked-up binding and leaves the environment untouched. -/
theorem evalNode_ident_x (fuel : Nat) (env : EnvC) :
    evalNode (fuel + 3) (.Program [.Identifier "x"]) env = (lookup env "x", env, []) := by
  cases hl : lookup env "x" <;> simp [evalNode, evalProgramBody, hl]

/-- C1 (counterexample): the claim says a subsequent
`evaluate(parse(tokenize("x;")), env)` returns Number(5); in fact the parse
of `"x;"` already fails — expression statements do not consume semicolons,
so the parser starts a second statement at `;` and
`_parsePrimaryExpression` raises `UnexpectedTokenError` there. -/
theorem C1_counterexample :
    (runSource "x;" ((runSource "let x = 2 + 3;" (createGlobalEnvironment [])).2.1)).1
      = .error (.UnexpectedTokenError .SemiColon ";" 1 1 1) := by
  with_unfolding_all rfl

/-- C1 (amended): `evaluate(parse(tokenize("let x = 2 + 3;")), env)`
declares `x` bound to Number(5) in any environment chain whose innermost
scope does not yet bind `x`; a subsequent round trip of the source `"x"`
(WITHOUT the trailing semicolon, which the parser rejects after an
expression statement) against the updated environment returns Number(5). -/
theorem C1_round_trip (vars : Scope) (rest : EnvC) (h : mapHas vars "x" = false) :
    ∃ env2, runSource "let x = 2 + 3;" (vars :: rest) = (.ok (.number 5 none), env2, [])
      ∧ lookup env2 "x" = .ok (.number 5 none)
      ∧ (runSource "x" env2).1 = .ok (.number 5 none) := by
  refine ⟨mapSet vars "x" (.number 5 none) :: rest, ?_, ?_, ?_⟩
  · have h0 : runSource "let x = 2 + 3;" (vars :: rest)
        = evalNode (2 + 5)
            (.Program [.VariableDeclaration false "x"
              (some (.BinaryExpression "+" (.DecimalLiteral 2) (.DecimalLiteral 3)))])
            (vars :: rest) := by
      with_unfolding_all rfl
    rw [h0, evalNode_let_x 2 vars rest h]
  · simp [lookup, mapGet_mapSet_self vars "x" (.number 5 none)]
  · have h1 : runSource "x" (mapSet vars "x" (.number 5 none) :: rest)
        = evalNode (1 + 3) (.Program [.Identifier "x"])
            (mapSet vars "x" (.number 5 none) :: rest) := by
      with_unfolding_all rfl
    rw [h1, evalNode_ident_x]
    simp [lookup, mapGet_mapSet_self vars "x" (.number 5 none)]

/-- C1 (witness, at the one-scope empty environment). -/
theorem C1_round_trip_witness :
    ∃ env2, runSource "let x = 2 + 3;" ([] :: ([] : EnvC)) = (.ok (.number 5 none), env2, [])
      ∧ lookup env2 "x" = .ok (.number 5 none)
      ∧ (runSource "x" env2).1 = .ok (.number 5 none) :=
  C1_round_trip [] [] rfl

/-! ## Claim C2 — grouping of `**` -/

/-- C2 (counterexample): the claim says the pipeline on `"2 * 3 ** 2;"`
yields Number(18); in fact the parse already fails on the trailing
semicolon (expression statements do not consume it). -/
theorem C2_counterexample :
    (runSource "2 * 3 ** 2;" (createGlobalEnvironment [])).1
      = .error (.UnexpectedTokenError .SemiColon ";" 1 5 10) := by
  with_unfolding_all rfl

/-- C2 (amended): on the parsable source `"2 * 3 ** 2"` (no trailing
semicolon) the multiplicative chain groups LEFT-associatively, i.e. as
`(2 * 3) ** 2`, and evaluation in a fresh global environment yields
Number(36) — not 18, which would require the grouping `2 * (3 ** 2)`. -/
theorem C2_power_grouping :
    parseSource "2 * 3 ** 2"
        = .ok (.Program [.BinaryExpression "**"
            (.BinaryExpression "*" (.DecimalLiteral 2) (.DecimalLiteral 3))
            (.DecimalLiteral 2)])
      ∧ runSource "2 * 3 ** 2" (createGlobalEnvironment [])
          = (.ok (.number 36 none), createGlobalEnvironment [], []) := by
  constructor
  · with_unfolding_all rfl
  · with_unfolding_all rfl

/-! ## Claim C6 — constant protection with atomicity -/

/-- On an ancestor chain, resolving a name whose owning binding is readonly
makes the assignment fail and leaves the chain untouched. -/
theorem assignGo_readonly (env : EnvC) (name : String) (old v2 : RValue)
    (hl : lookup env name = .ok old) (hro : isTruthyFlag old.readonlyFlag = true) :
    assignGo env name v2
      = (.error (.Exception ("Cannot assign constant variable \x27" ++ name ++ "\x27")), env) := by
  induction env with
  | nil => simp [lookup] at hl
  | cons vars rest ih =>
    simp only [lookup] at hl
    simp only [assignGo]
    cases hg : mapGet vars name with
    | some w =>
      simp only [hg] at hl
      injection hl with hw
      subst hw
      simp [hro]
    | none =>
      simp only [hg] at hl
      simp [ih hl]

/-- C6: whenever the owning binding of `name` in the chain is readonly
(in the JS-truthy sense), `Environment.assign` raises the
assignment-to-constant `Exception`, the chain is unchanged, and a
subsequent `lookup` still returns the previously bound value. -/
theorem C6_assign_constant_atomic (env : EnvC) (name : String) (old v2 : RValue)
    (hl : lookup env name = .ok old) (hro : isTruthyFlag old.readonlyFlag = true) :
    assign env name v2
        = (.error (.Exception ("Cannot assign constant variable \x27" ++ name ++ "\x27")), env)
      ∧ lookup (assign env name v2).2 name = .ok old := by
  have main : assign env name v2
      = (.error (.Exception ("Cannot assign constant variable \x27" ++ name ++ "\x27")), env) := by
    cases env with
    | nil => simp [lookup] at hl
    | cons vars rest =>
      simp only [lookup] at hl
      simp only [assign]
      cases hg : mapGet vars name with
      | some w =>
        simp only [hg] at hl
        injection hl with hw
        subst hw
        simp [hro]
      | none =>
        simp only [hg] at hl
        cases rest with
        | nil => simp [lookup] at hl
        | cons r rs => simp [assignGo_readonly (r :: rs) name old v2 hl hro]
  refine ⟨main, ?_⟩
  rw [main]
  exact hl

/-- C6 (witness, at the readonly `print` binding of the global scope). -/
theorem C6_assign_constant_atomic_witness :
    assign (createGlobalEnvironment []) "print" (.null (some false))
        = (.error (.Exception ("Cannot assign constant variable \x27" ++ "print" ++ "\x27")),
          createGlobalEnvironment [])
      ∧ lookup (assign (createGlobalEnvironment []) "print" (.null (some false))).2 "print"
          = .ok (.nativeFn .print (some true)) :=
  C6_assign_constant_atomic (createGlobalEnvironment []) "print" (.nativeFn .print (some true))
    (.null (some false)) rfl rfl

/-! ## Claim C7 — per-scope redeclaration and shadowing -/

/-- C7: `Environment.declare` fails exactly when the name already exists in
the environment scope itself — declarations in ancestor scopes (the tail of
the chain, arbitrary here) do not count — and it never touches the ancestor
chain, so declaring over a parent binding shadows it: afterwards the name
resolves in the child scope while every ancestor scope is unchanged. -/
theorem C7_declare_scoping (vars : Scope) (rest : EnvC) (name : String) (v : RValue)
    (ro : Option Bool) :
    ((declare (vars :: rest) name v ro).1.isOk ↔ mapHas vars name = false)
      ∧ (declare (vars :: rest) name v ro).2.tail = rest
      ∧ (mapHas vars name = false →
          ∃ w, lookup (declare (vars :: rest) name v ro).2 name = .ok w) := by
  by_cases h : mapHas vars name
  · simp [declare, h, Except.isOk, Except.toBool]
  · refine ⟨by simp [declare, h, Except.isOk, Except.toBool], by simp [declare, h], fun _ => ?_⟩
    refine ⟨if v.readonlyFlag = none ∧ ro ≠ none then v.withReadonly ro else v, ?_⟩
    simp [declare, h, lookup, mapGet_mapSet_self]

/-- C7 (witness: a child scope without `y`, over a parent that binds `y`). -/
theorem C7_declare_scoping_witness :
    ((declare ([] :: [[("y", .null (some false))]]) "y" (.null none) none).1.isOk
        ↔ mapHas [] "y" = false)
      ∧ (declare ([] :: [[("y", .null (some false))]]) "y" (.null none) none).2.tail
          = [[("y", .null (some false))]]
      ∧ (mapHas [] "y" = false →
          ∃ w, lookup (declare ([] :: [[("y", .null (some false))]]) "y" (.null none) none).2 "y"
            = .ok w) :=
  C7_declare_scoping [] [[("y", .null (some false))]] "y" (.null none) none

/-! ## Claim C8 — order of caller check vs argument evaluation -/

/-- C8 (counterexample): the claim says the caller-side error pre-empts
argument evaluation; but for a call whose caller is the non-identifier
`IntegerLiteral 1` and whose argument is the undefined variable `zzz`, the
evaluator raises the ARGUMENT error (undefined variable), not the
caller-side error — `_evalCall` maps `evaluate` over the arguments before
looking at the caller. -/
theorem C8_counterexample :
    (evalNode 3 (.CallExpression (.IntegerLiteral 1) [.Identifier "zzz"])
        (createGlobalEnvironment [])).1
        = .error (.Exception ("Undefined variable \x27zzz\x27"))
      ∧ Err.Exception ("Undefined variable \x27zzz\x27")
          ≠ .Exception ("The caller of a call expression must be an identifier, but got "
              ++ "IntegerLiteral") := by
  exact ⟨by with_unfolding_all rfl, by decide⟩

/-- C8 (amended): `_evalCall` evaluates ALL argument expressions first;
only afterwards does it check that the caller is a bare Identifier (and
then that the callee is a native callable).  Hence (1) an argument error
decides the whole call, whatever the caller is, and (2) when the arguments
succeed, their environment side effects are retained even though a
non-identifier caller then raises the caller-side `Exception`. -/
theorem C8_arguments_evaluated_first (fuel : Nat) (caller : Node) (argExprs : List Node)
    (env env1 : EnvC) (out : List String) :
    (∀ e, evalNodeList fuel argExprs env = (.error e, env1, out) →
      evalNode (fuel + 1) (.CallExpression caller argExprs) env = (.error e, env1, out))
      ∧ (∀ vs, evalNodeList fuel argExprs env = (.ok vs, env1, out) →
          (∀ s, caller ≠ .Identifier s) →
          evalNode (fuel + 1) (.CallExpression caller argExprs) env
            = (.error (.Exception ("The caller of a call expression must be an identifier, but got "
                ++ caller.kindName)), env1, out)) := by
  constructor
  · intro e he
    simp [evalNode, he]
  · intro vs hvs hc
    cases caller with
    | Identifier s => exact absurd rfl (hc s)
    | _ => simp [evalNode, hvs]

/-- C8 (witness: argument error pre-empts the non-identifier caller). -/
theorem C8_arguments_evaluated_first_witness :
    evalNode (2 + 1) (.CallExpression (.IntegerLiteral 1) [.Identifier "zzz"]) [[]]
      = (.error (.Exception ("Undefined variable \x27zzz\x27")), [[]], []) :=
  (C8_arguments_evaluated_first 2 (.IntegerLiteral 1) [.Identifier "zzz"] [[]] [[]] []).1
    (.Exception ("Undefined variable \x27zzz\x27")) rfl

/-! ## Claim C9 — assignment-target check before value evaluation -/

/-- C9: when the target of an `AssignmentExpression` is any node kind other
than `Identifier`, evaluation raises the `Exception` naming the target kind
BEFORE evaluating the value expression: the environment is returned
unchanged and no output is produced, whatever the value expression is. -/
theorem C9_assignment_target_check (fuel : Nat) (target value : Node) (env : EnvC)
    (h : ∀ s, target ≠ .Identifier s) :
    evalNode (fuel + 1) (.AssignmentExpression target value) env
      = (.error (.Exception ("The target of an assignment must be an identifier, but got "
          ++ target.kindName)), env, []) := by
  cases target with
  | Identifier s => exact absurd rfl (h s)
  | _ => simp [evalNode]

/-- C9 (witness: a literal target with a value expression whose evaluation
would raise an undefined-variable error — the target check wins and the
environment and output are untouched). -/
theorem C9_assignment_target_check_witness :
    evalNode (0 + 1) (.AssignmentExpression (.IntegerLiteral 1) (.Identifier "boom")) [[]]
      = (.error (.Exception ("The target of an assignment must be an identifier, but got "
          ++ (Node.IntegerLiteral 1).kindName)), [[]], []) :=
  C9_assignment_target_check 0 (.IntegerLiteral 1) (.Identifier "boom") [[]]
    (fun _ h => by cases h)

/-! ## Claim C10 — arity of the global `print` binding -/

/-- C10: the global environment binds `print` to the native `print`
callable; invoking its handler with two or more arguments raises the
`Exception` `print() takes only one argument` with NO output written, and
invoking it with zero arguments writes exactly the display form of Null
(`[null]`) and returns Null. -/
theorem C10_print_arity (args : List RValue) (h : 2 ≤ args.length) :
    lookup (createGlobalEnvironment []) "print" = .ok (.nativeFn .print (some true))
      ∧ printNative args = ([], .error (.Exception "print() takes only one argument"))
      ∧ printNative [] = (["[null]"], .ok (.null (some false))) := by
  refine ⟨rfl, ?_, rfl⟩
  have : args.length > 1 := h
  simp [printNative, this]

/-- C10 (witness, at a two-argument invocation). -/
theorem C10_print_arity_witness :
    lookup (createGlobalEnvironment []) "print" = .ok (.nativeFn .print (some true))
      ∧ printNative [.null (some false), .null (some false)]
          = ([], .error (.Exception "print() takes only one argument"))
      ∧ printNative [] = (["[null]"], .ok (.null (some false))) :=
  C10_print_arity [.null (some false), .null (some false)] (by decide)

end Paganini
